import Mathlib

/-!
Shallow embedding of the YouTube metrics-collector plugin
(`src/plugins/inputs/youtube/youtube.go` and the related source files
`src/unnamed/part_000`, `src/unnamed/part_001`).

The repository carries several near-duplicate revisions of the plugin:

* `youtube.go` (second revision in the file, lines 275-533): the fused
  pipeline whose `gatherPlaylist` walks pages recursively, fetches each
  video's detail document, and extracts the five `statistics` counters with
  `strings.Trim(gjson.Get(resp, "items.#.statistics.X").String(), "[]\"")`
  followed by `strconv.ParseFloat`.
* `part_000`: an earlier revision whose per-item extraction parses the
  trimmed `viewCount` text unconditionally (no emptiness guard).
* `part_001`: the restructured revision (the one its unit tests compile
  against) whose `gatherPlaylist` returns the identifier list, whose
  `gatherVideoStatistics` assembles metrics, and whose `extractAllStats`
  reads the five counters with gjson's `Int()` coercion.

HTTP transport is abstracted as oracles `String → Except String _`
(token ↦ page, videoId ↦ detail document); response bodies are abstracted
to the structured values the gjson queries of the Go code read out of them.
All definitions are executable.
-/

/-- A JSON value as resolved by a gjson field query inside an item's
`statistics` object: a bare number (kept as its source text), a quoted
string, or an array of values. -/
inductive Jv : Type
  | num (s : String)
  | str (s : String)
  | arr (xs : List Jv)

/-- A `statistics` object: association list from key to value, in document
order (first binding wins, as in JSON objects read by gjson). -/
abbrev Stats := List (String × Jv)

/-- A detail document for the `items.#.statistics.X` queries of
`youtube.go`: the list of the items' `statistics` objects. -/
abbrev DocV2 := List Stats

/-- First value bound to key `k` in a statistics object (gjson field
resolution). -/
def lookupKey (st : Stats) (k : String) : Option Jv :=
  (st.find? (fun p => p.1 == k)).map (·.2)

/-- The gjson query `items.#.statistics.k`: the values of field `k`
collected from every item that has it. -/
def queryAll (doc : DocV2) (k : String) : List Jv :=
  doc.filterMap (fun st => lookupKey st k)

/-- Comma-join used when gjson serialises a query-result array back to its
raw JSON text. -/
def joinComma : List (List Char) → List Char
  | [] => []
  | [x] => x
  | x :: xs => x ++ ',' :: joinComma xs

mutual

/-- Raw JSON text of a single value, as produced by gjson's `Result.String()`
(numbers keep their source text, strings are re-quoted, arrays are
re-bracketed). -/
def renderVal : Jv → List Char
  | .num s => s.data
  | .str s => '"' :: s.data ++ ['"']
  | .arr xs => '[' :: joinComma (renderValList xs) ++ [']']

/-- Raw JSON texts of a list of values. -/
def renderValList : List Jv → List (List Char)
  | [] => []
  | x :: xs => renderVal x :: renderValList xs

end

/-- Raw JSON text of the array returned by a `items.#.statistics.k` query:
`[v1,v2,...]` (the empty query renders as `[]`). -/
def renderAll (xs : List Jv) : List Char :=
  '[' :: joinComma (renderValList xs) ++ [']']

instance {ε α : Type} [DecidableEq ε] [DecidableEq α] : DecidableEq (Except ε α)
  | .ok a, .ok b =>
    if h : a = b then .isTrue (by rw [h]) else .isFalse (by intro hh; cases hh; exact h rfl)
  | .ok _, .error _ => .isFalse (by intro h; cases h)
  | .error _, .ok _ => .isFalse (by intro h; cases h)
  | .error e, .error f =>
    if h : e = f then .isTrue (by rw [h]) else .isFalse (by intro hh; cases hh; exact h rfl)

/-- Character class removed by `strings.Trim(s, "[]\"")` in `youtube.go`:
brackets and double quotes. -/
def isCut (c : Char) : Bool :=
  c == '[' || c == ']' || c == '"'

/-- `strings.Trim(s, "[]\"")`: remove every leading and trailing bracket or
quote character. -/
def trimChars (l : List Char) : List Char :=
  ((l.dropWhile isCut).reverse.dropWhile isCut).reverse

/-- Digit run to its base-10 value. -/
def digitsToNat (l : List Char) : Nat :=
  l.foldl (fun n c => n * 10 + (c.toNat - '0'.toNat)) 0

/-- Exact decimal number `mant * 10 ^ exp`, the value domain of the modelled
`strconv.ParseFloat`.  The claims under study depend only on parse
success/failure and on the values of plain decimal literals, so an exact
decimal representation stands in for Go's `float64` without introducing
binary rounding. -/
structure Dec where
  mant : Int
  exp : Int
deriving DecidableEq, Repr

/-- Model of `strconv.ParseFloat(s, 64)` on plain decimal syntax
`[sign] digits [. digits] [(e|E) [sign] digits]` with a nonempty mantissa.
Inputs outside this grammar (including the empty string) fail, as they do
in Go. -/
def parseFloatChars (l : List Char) : Option Dec :=
  let (sgn, l₁) :=
    match l with
    | '+' :: r => ((1 : Int), r)
    | '-' :: r => ((-1 : Int), r)
    | r => ((1 : Int), r)
  let ds₁ := l₁.takeWhile Char.isDigit
  let r₁ := l₁.dropWhile Char.isDigit
  let (ds₂, r₂) :=
    match r₁ with
    | '.' :: r => (r.takeWhile Char.isDigit, r.dropWhile Char.isDigit)
    | r => (([] : List Char), r)
  if ds₁ = [] ∧ ds₂ = [] then none
  else
    let mant : Int := sgn * (digitsToNat (ds₁ ++ ds₂) : Int)
    let fracExp : Int := -(ds₂.length : Int)
    match r₂ with
    | [] => some ⟨mant, fracExp⟩
    | e :: r₃ =>
      if e = 'e' ∨ e = 'E' then
        let (epos, r₄) :=
          match r₃ with
          | '+' :: r => (true, r)
          | '-' :: r => (false, r)
          | r => (true, r)
        let eds := r₄.takeWhile Char.isDigit
        let r₅ := r₄.dropWhile Char.isDigit
        if eds = [] ∨ r₅ ≠ [] then none
        else some ⟨mant, fracExp + (if epos then (digitsToNat eds : Int) else -(digitsToNat eds : Int))⟩
      else none

/-- Model of `strconv.ParseInt(s, 10, 64)`: optional sign followed by a
nonempty digit run, nothing else. -/
def parseIntChars (l : List Char) : Option Int :=
  let (sgn, l₁) :=
    match l with
    | '+' :: r => ((1 : Int), r)
    | '-' :: r => ((-1 : Int), r)
    | r => ((1 : Int), r)
  if l₁ = [] ∨ ¬ l₁.all Char.isDigit then none
  else some (sgn * (digitsToNat l₁ : Int))

/-- Value of an exact decimal truncated toward zero, as Go's `int64(f)`
conversion (`Int.tdiv` is truncating division). -/
def decToInt (d : Dec) : Int :=
  match d.exp with
  | .ofNat n => d.mant * (10 : Int) ^ n
  | .negSucc n => Int.tdiv d.mant ((10 : Int) ^ (n + 1))

/-- Error text standing for the `*strconv.NumError` returned by
`strconv.ParseFloat` on malformed input. -/
def parseErrMsg : String := "strconv.ParseFloat: invalid syntax"

/-- The numeric step of one field block of `youtube.go` `gatherPlaylist`
(lines 415-421 and the four analogous blocks): given the trimmed text,
an empty text omits the field, a parse failure is a hard error, and a
parsed value is recorded. -/
def extractFromText (s : List Char) : Except String (Option Dec) :=
  if s = [] then .ok none
  else
    match parseFloatChars s with
    | none => .error parseErrMsg
    | some q => .ok (some q)

/-- One field extraction of `youtube.go` `gatherPlaylist`:
`strings.Trim(gjson.Get(resp, "items.#.statistics."++k).String(), "[]\"")`
followed by the guard and `strconv.ParseFloat`. -/
def extractFieldV2 (doc : DocV2) (k : String) : Except String (Option Dec) :=
  extractFromText (trimChars (renderAll (queryAll doc k)))

/-- The five statistics fields read by the plugin, in the order the Go code
extracts them. -/
def fiveKeys : List String :=
  ["viewCount", "likeCount", "dislikeCount", "favoriteCount", "commentCount"]

/-- Fold of `assembleV2` over the remaining keys, accumulating the fields
extracted so far (the Go `fields` map, kept in insertion order). -/
def assembleGo (doc : DocV2) : List String → List (String × Dec) → Except String (List (String × Dec))
  | [], acc => .ok acc
  | k :: ks, acc =>
    match extractFieldV2 doc k with
    | .error e => .error e
    | .ok none => assembleGo doc ks acc
    | .ok (some q) => assembleGo doc ks (acc ++ [(k, q)])

/-- The field-assembly section of `youtube.go` `gatherPlaylist`
(lines 411-458): extract the five counters in order, aborting the item on
the first parse error. -/
def assembleV2 (doc : DocV2) : Except String (List (String × Dec)) :=
  assembleGo doc fiveKeys []

/-- A metric record assembled by the `youtube.go` pipeline: the `videoId`
tag and the numeric field mapping (two records are equal when tag and field
content agree; Go's map iteration order is immaterial and the insertion
order of the five fixed keys is used). -/
structure RecV2 where
  videoId : String
  fields : List (String × Dec)
deriving DecidableEq, Repr

/-- The telegraf accumulator as seen by the `youtube.go` pipeline: the
metrics passed to `AddFields` and the errors passed to `AddError`, in
order.  `AddError(nil)` is a no-op in telegraf and adds nothing. -/
structure AccV2 where
  records : List RecV2
  errors : List String
deriving DecidableEq, Repr

/-- Append one error to the accumulator (`acc.AddError(err)` with a
non-nil error); `none` models `AddError(nil)`, which adds nothing. -/
def addErr (acc : AccV2) : Option String → AccV2
  | none => acc
  | some e => { acc with errors := acc.errors ++ [e] }

/-- The per-video loop of `youtube.go` `gatherPlaylist` (lines 404-468):
for each video id, fetch its detail document (`fd`), assemble the five
statistics fields, and emit a record when the field mapping is non-empty.
Any fetch or parse error makes the function return that error at once
(`return err`), leaving the remaining ids of this page unprocessed but
keeping everything already added to the accumulator. -/
def processVidsV2 (fd : String → Except String DocV2) (acc : AccV2) :
    List String → AccV2 × Option String
  | [] => (acc, none)
  | id :: rest =>
    match fd id with
    | .error e => (acc, some e)
    | .ok doc =>
      match assembleV2 doc with
      | .error e => (acc, some e)
      | .ok fields =>
        let acc' :=
          if fields.isEmpty then acc
          else { acc with records := acc.records ++ [⟨id, fields⟩] }
        processVidsV2 fd acc' rest

/-- Page of a playlist-listing response as read by `youtube.go`
`gatherPlaylist`: the optional `nextPageToken` and the
`items.#.snippet.resourceId.videoId` list. -/
structure PageV2 where
  next : Option String
  ids : List String
deriving DecidableEq, Repr

/-- `youtube.go` `gatherPlaylist` (lines 373-471).  `fp` is the page fetch
(token ↦ page; `""` requests the first page), `fd` the per-video detail
fetch.  If the page fetch fails the error is returned.  If the page carries
a `nextPageToken`, the next page is gathered recursively FIRST and the
recursion's returned error is handed to `acc.AddError`; afterwards the
current page's ids are processed.  `fuel` bounds the recursion depth (the
Go recursion is unbounded; every theorem supplies enough fuel for the
chain at hand). -/
def gatherPlaylistV2 (fp : String → Except String PageV2)
    (fd : String → Except String DocV2) :
    Nat → String → AccV2 → AccV2 × Option String
  | 0, _, acc => (acc, some "recursion fuel exhausted")
  | fuel + 1, tok, acc =>
    match fp tok with
    | .error e => (acc, some e)
    | .ok pg =>
      let acc₁ :=
        match pg.next with
        | some t =>
          let (a, r) := gatherPlaylistV2 fp fd fuel t acc
          addErr a r
        | none => acc
      processVidsV2 fd acc₁ pg.ids

/-- `youtube.go` `Gather` (lines 341-364): run `gatherPlaylist(acc, "")` in
the (immediately joined) goroutine, hand its returned error to
`accumulator.AddError`, and return `nil` unconditionally.  The result is
the final accumulator paired with Gather's returned error value. -/
def GatherV2 (fp : String → Except String PageV2)
    (fd : String → Except String DocV2) (fuel : Nat) : AccV2 × Option String :=
  let (a, r) := gatherPlaylistV2 fp fd fuel "" ⟨[], []⟩
  (addErr a r, none)

/-- A playlist page as read by `part_001`'s `gatherPlaylist`:
`pageInfo.resultsPerPage`, the optional `nextPageToken`, and the
`items.#.snippet.resourceId.videoId` list. -/
structure Page1 where
  rpp : Nat
  next : Option String
  ids : List String
deriving DecidableEq, Repr

/-- The index-assignment loop `for i, videoId := range result.Array() {
videoIds[i] = videoId.String() }` of `part_001` (lines 111-113), writing the
current page's ids into the preallocated slice starting at index `i`.
(A write past the end of the slice panics in Go; `List.set` drops it, and
no theorem below relies on that out-of-range case.) -/
def setIds (base : List String) : Nat → List String → List String
  | _, [] => base
  | i, id :: rest => setIds (base.set i id) (i + 1) rest

/-- Walker events, used to state in which order `part_001`'s
`gatherPlaylist` performs its work: `fetch t` when `sendRequest` is issued
for the page requested by token `t`, `extract t` when that page's
identifier-extraction loop runs. -/
inductive WEvent where
  | fetch (tok : String)
  | extract (tok : String)
deriving DecidableEq, Repr

/-- `part_001` `gatherPlaylist` (lines 73-116).  Fetch the page for
`pageToken`; preallocate `videoIds := make([]string, resultsPerPage)`;
if a `nextPageToken` exists, gather the next page recursively FIRST
(aborting with its error if it fails) and append its ids; finally write the
current page's ids into the front of the slice.  The second component is
the trace of fetch/extract events in execution order.  `fuel` bounds the
recursion depth (unbounded in Go; theorems supply enough). -/
def gatherPlaylistP1 (fp : String → Except String Page1) :
    Nat → String → Except String (List String) × List WEvent
  | 0, _ => (.error "recursion fuel exhausted", [])
  | fuel + 1, tok =>
    match fp tok with
    | .error e => (.error e, [.fetch tok])
    | .ok pg =>
      let base := List.replicate pg.rpp ""
      match pg.next with
      | some t =>
        match gatherPlaylistP1 fp fuel t with
        | (.error e, evs) => (.error e, .fetch tok :: evs)
        | (.ok rest, evs) =>
          (.ok (setIds (base ++ rest) 0 pg.ids), .fetch tok :: evs ++ [.extract tok])
      | none => (.ok (setIds base 0 pg.ids), [.fetch tok, .extract tok])

/-- A detail document as read by `part_001`'s `extractAllStats`: the items
list, each item carrying its `id` and its `statistics` object. -/
abbrev Doc1 := List (String × Stats)

/-- The gjson query `items.#[id=="vid"].statistics`: the statistics object
of the first item whose `id` equals the requested video id. -/
def lookupFirst (doc : Doc1) (vid : String) : Option Stats :=
  (doc.find? (fun p => p.1 == vid)).map (·.2)

/-- gjson `Result.Int()` of a resolved field: a missing field is 0; numeric
or string text is parsed as a base-10 integer, falling back to float
parsing truncated toward zero, and to 0 when nothing parses ("not-a-number"
silently becomes 0). -/
def gjsonResInt : Option Jv → Int
  | none => 0
  | some (.num s) =>
    (parseIntChars s.data).getD (((parseFloatChars s.data).map decToInt).getD 0)
  | some (.str s) =>
    (parseIntChars s.data).getD (((parseFloatChars s.data).map decToInt).getD 0)
  | some (.arr _) => 0

/-- `part_001` `extractAllStats` (lines 154-173): resolve the first item
matching the video id; `ForEach` over its statistics object runs once per
key and each iteration (re)assigns all five counters via `Int()`, so a
non-empty statistics object yields all five fields and an unresolved or
empty one yields none.  The function itself always returns `nil`. -/
def extractAllStats (doc : Doc1) (vid : String) : List (String × Int) :=
  match lookupFirst doc vid with
  | none => []
  | some stats =>
    if stats.isEmpty then []
    else fiveKeys.map (fun k => (k, gjsonResInt (lookupKey stats k)))

/-- A metric record of the `part_001` pipeline (integer-valued fields). -/
structure Rec1 where
  videoId : String
  fields : List (String × Int)
deriving DecidableEq, Repr

/-- `part_001` `gatherVideoStatistics` (lines 118-152): for each video id
fetch the detail document, run `extractAllStats`, and emit a record iff the
field mapping is non-empty; a detail-fetch failure returns that error at
once, keeping the records already emitted and skipping the remaining ids. -/
def gatherVideoStatistics1 (fd : String → Except String Doc1) :
    List String → List Rec1 × Option String
  | [] => ([], none)
  | id :: rest =>
    match fd id with
    | .error e => ([], some e)
    | .ok doc =>
      let fields := extractAllStats doc id
      let cur : List Rec1 := if fields.isEmpty then [] else [⟨id, fields⟩]
      let (rs, er) := gatherVideoStatistics1 fd rest
      (cur ++ rs, er)

/-- `part_001` `Gather` (lines 62-71): run the walker from the first page;
on a walker error return it at once (no identifier is processed and no
metric is emitted); otherwise run `gatherVideoStatistics`, hand its error
to `AddError`, and return `nil`.  Result: (records, accumulator errors,
Gather's returned error). -/
def Gather1 (fp : String → Except String Page1) (fd : String → Except String Doc1)
    (fuel : Nat) : List Rec1 × List String × Option String :=
  match (gatherPlaylistP1 fp fuel "").1 with
  | .error e => ([], [], some e)
  | .ok ids =>
    let (recs, er) := gatherVideoStatistics1 fd ids
    (recs, (match er with | some e => [e] | none => []), none)

/-- The per-item extraction of the `part_000` revision (lines 172-177):
`strings.Trim(gjson.Get(resp, "items.#.statistics.viewCount").String(), "[]\"")`
is parsed with `strconv.ParseFloat` UNCONDITIONALLY — there is no emptiness
guard, so an absent field parses the empty string and is a hard error. -/
def gatherItemP0 (doc : DocV2) : Except String (List (String × Dec)) :=
  match parseFloatChars (trimChars (renderAll (queryAll doc "viewCount"))) with
  | none => .error parseErrMsg
  | some q => .ok [("viewCount", q)]

/-- The UTF-8 byte-order mark, `var utf8BOM = []byte("\xef\xbb\xbf")`. -/
def utf8BOM : List Nat := [0xEF, 0xBB, 0xBF]

/-- Body post-processing of `youtube.go` `sendRequest` (lines 509-513):
`body = bytes.TrimPrefix(body, utf8BOM)` — the BOM prefix, when present, is
removed before the body is returned for JSON parsing.  This `sendRequest`
serves both the page-listing and the per-video detail requests. -/
def sendRequestBodyYt (raw : List Nat) : List Nat :=
  if raw.take 3 = utf8BOM then raw.drop 3 else raw

/-- Body post-processing of `part_001` `sendRequest` (lines 193-198): the
body bytes are returned exactly as read — this revision performs no BOM
stripping at all. -/
def sendRequestBodyP1 (raw : List Nat) : List Nat :=
  raw

/-! ### Helper lemmas -/

lemma addErr_records (acc : AccV2) (r : Option String) : (addErr acc r).records = acc.records := by
  cases r <;> rfl

lemma processVidsV2_records_nonempty (fd : String → Except String DocV2)
    (ids : List String) :
    ∀ acc : AccV2, acc.records.all (fun r => !r.fields.isEmpty) = true →
      ((processVidsV2 fd acc ids).1).records.all (fun r => !r.fields.isEmpty) = true := by
  induction ids with
  | nil => intro acc h; exact h
  | cons id rest ih =>
    intro acc h
    simp only [processVidsV2]
    cases hfd : fd id with
    | error e => simp only [hfd]; exact h
    | ok doc =>
      simp only [hfd]
      cases has : assembleV2 doc with
      | error e => simp only [has]; exact h
      | ok fields =>
        simp only [has]
        by_cases hf : fields.isEmpty = true
        · rw [if_pos hf]
          exact ih acc h
        · rw [if_neg hf]
          apply ih
          have hf' : fields.isEmpty = false := by
            cases hie : fields.isEmpty
            · rfl
            · exact absurd hie hf
          simp [List.all_append, h, hf']

lemma gatherPlaylistV2_records_nonempty (fp : String → Except String PageV2)
    (fd : String → Except String DocV2) :
    ∀ (fuel : Nat) (tok : String) (acc : AccV2),
      acc.records.all (fun r => !r.fields.isEmpty) = true →
      ((gatherPlaylistV2 fp fd fuel tok acc).1).records.all (fun r => !r.fields.isEmpty) = true := by
  intro fuel
  induction fuel with
  | zero => intro tok acc h; exact h
  | succ fuel ih =>
    intro tok acc h
    simp only [gatherPlaylistV2]
    cases hfp : fp tok with
    | error e => simp only [hfp]; exact h
    | ok pg =>
      simp only [hfp]
      cases hn : pg.next with
      | none =>
        simp only [hn]
        exact processVidsV2_records_nonempty fd pg.ids acc h
      | some t =>
        simp only [hn]
        rcases hgp : gatherPlaylistV2 fp fd fuel t acc with ⟨a, r⟩
        have ha : a.records.all (fun r => !r.fields.isEmpty) = true := by
          have := ih t acc h
          rw [hgp] at this
          exact this
        simp only [hgp]
        apply processVidsV2_records_nonempty
        rw [addErr_records]
        exact ha

lemma gvs1_records_nonempty (fd : String → Except String Doc1) (ids : List String) :
    ((gatherVideoStatistics1 fd ids).1).all (fun r => !r.fields.isEmpty) = true := by
  induction ids with
  | nil => rfl
  | cons id rest ih =>
    simp only [gatherVideoStatistics1]
    cases hfd : fd id with
    | error e => simp only [hfd]; rfl
    | ok doc =>
      simp only [hfd]
      rcases hrec : gatherVideoStatistics1 fd rest with ⟨rs, er⟩
      have hrs : rs.all (fun r => !r.fields.isEmpty) = true := by
        rw [hrec] at ih; exact ih
      simp only [hrec]
      by_cases hf : (extractAllStats doc id).isEmpty = true
      · rw [if_pos hf]
        simpa using hrs
      · rw [if_neg hf]
        have hf' : (extractAllStats doc id).isEmpty = false := by
          cases hie : (extractAllStats doc id).isEmpty
          · rfl
          · exact absurd hie hf
        simp [List.all_append, hrs, hf']

/-! ### C1 -/

/-- C1: in both assembly pipelines (`gatherVideoStatistics` of `part_001`
and the per-video loop of `youtube.go` `Gather`/`gatherPlaylist`), every
metric record handed to the accumulator has a non-empty field mapping; an
item whose detail document yields zero extractable fields produces no
record at all. -/
theorem C1_record_requires_nonempty_fields :
    (∀ (fd : String → Except String Doc1) (ids : List String),
      ((gatherVideoStatistics1 fd ids).1).all (fun r => !r.fields.isEmpty) = true) ∧
    (∀ (fp : String → Except String PageV2) (fd : String → Except String DocV2) (fuel : Nat),
      (((GatherV2 fp fd fuel).1).records).all (fun r => !r.fields.isEmpty) = true) := by
  constructor
  · exact fun fd ids => gvs1_records_nonempty fd ids
  · intro fp fd fuel
    unfold GatherV2
    rcases hgp : gatherPlaylistV2 fp fd fuel "" ⟨[], []⟩ with ⟨a, r⟩
    have ha : a.records.all (fun r => !r.fields.isEmpty) = true := by
      have := gatherPlaylistV2_records_nonempty fp fd fuel "" ⟨[], []⟩ (by rfl)
      rw [hgp] at this
      exact this
    simp only [hgp, addErr_records]
    exact ha

/-! ### C10 -/

/-- C10: `youtube.go` `Gather` always returns `nil`, whatever the page and
detail oracles do; the walk's returned error is surfaced exclusively
through the accumulator's `AddError` (appended to the accumulated error
list), never as Gather's return value. -/
theorem C10_gather_always_returns_nil :
    ∀ (fp : String → Except String PageV2) (fd : String → Except String DocV2) (fuel : Nat),
      (GatherV2 fp fd fuel).2 = none ∧
      ((GatherV2 fp fd fuel).1).errors =
        ((gatherPlaylistV2 fp fd fuel "" ⟨[], []⟩).1).errors ++
          (match (gatherPlaylistV2 fp fd fuel "" ⟨[], []⟩).2 with
           | some e => [e]
           | none => []) := by
  intro fp fd fuel
  unfold GatherV2
  rcases hgp : gatherPlaylistV2 fp fd fuel "" ⟨[], []⟩ with ⟨a, r⟩
  cases r <;> simp [addErr]

/-! ### C9 -/

/-- C9 counterexample: a BOM-prefixed body passed through `part_001`'s
`sendRequest` is returned with the byte-order mark still in place (here the
body `EF BB BF 7B 7D`, a BOM followed by `{}`), so the gjson parsing in
that revision sees a BOM-prefixed document; the `youtube.go` `sendRequest`
strips it. -/
theorem C9_counterexample :
    sendRequestBodyP1 (utf8BOM ++ [0x7B, 0x7D]) = utf8BOM ++ [0x7B, 0x7D] ∧
    utf8BOM ++ [0x7B, 0x7D] ≠ [0x7B, 0x7D] ∧
    sendRequestBodyYt (utf8BOM ++ [0x7B, 0x7D]) = [0x7B, 0x7D] := by
  decide

/-- C9 amended: bodies returned by the `youtube.go` `sendRequest` (which
serves both the page-listing and the per-video detail requests of that
revision) have a leading UTF-8 byte-order mark stripped before any JSON
parsing; the `part_001` revision's `sendRequest` returns the raw bytes
unchanged, performing no BOM stripping. -/
theorem C9_bom_stripped_yt :
    (∀ raw : List Nat, sendRequestBodyYt (utf8BOM ++ raw) = raw) ∧
    (∀ raw : List Nat, sendRequestBodyP1 raw = raw) := by
  constructor
  · intro raw
    simp [sendRequestBodyYt, utf8BOM]
  · intro raw
    rfl

/-! ### C5 -/

/-- C5 counterexample: in the `part_000` revision's per-item extraction the
absent `viewCount` path (here: a detail document with no items at all)
trims to the empty string and is fed to `strconv.ParseFloat` with no
emptiness guard, so the item fails with a hard parse error instead of
returning absent. -/
theorem C5_counterexample :
    queryAll [] "viewCount" = [] ∧ gatherItemP0 [] = .error parseErrMsg :=
  ⟨rfl, by decide⟩

/-- C5: in the `youtube.go` extractor, a field path that resolves to
nothing in the detail document (no item's statistics object binds the key)
yields absent — the field is omitted — and never an error. -/
theorem C5_absent_field_is_ok_none :
    ∀ (doc : DocV2) (k : String), queryAll doc k = [] →
      extractFieldV2 doc k = .ok none := by
  intro doc k h
  show extractFromText (trimChars (renderAll (queryAll doc k))) = .ok none
  rw [h]
  rfl

/-- C5 witness: the extractor applied to the empty document returns absent
for `viewCount` with no error. -/
theorem C5_absent_field_witness :
    extractFieldV2 [] "viewCount" = .ok none :=
  C5_absent_field_is_ok_none [] "viewCount" rfl

/-! ### C6 -/

/-- C6 (code bug): on the two-page chain page1 = (resultsPerPage 2,
ids ["a","b"], next "t2"), page2 = (resultsPerPage 2, ids ["c"], last),
`part_001`'s walker does issue exactly the two fetches, but
`make([]string, resultsPerPage)` preallocates the identifier slice by
`resultsPerPage`, so the partial last page leaves a padding entry and the
walker returns the four identifiers `["a", "b", "c", ""]` — an extra empty
identifier instead of exactly the three page identifiers. -/
theorem C6_walker_pads_with_empty_ids :
    gatherPlaylistP1
      (fun t => if t = "" then .ok ⟨2, some "t2", ["a", "b"]⟩
                else if t = "t2" then .ok ⟨2, none, ["c"]⟩
                else .error "unexpected token") 2 ""
      = (.ok ["a", "b", "c", ""],
         [.fetch "", .fetch "t2", .extract "t2", .extract ""]) := by
  decide

/-! ### C2 -/

/-- The page oracle `fp` fails `d` pages below the page requested by token
`t`: the first `d` fetches succeed, each page handing the token of the
next, and the fetch at depth `d` returns an error. -/
inductive FailsAt (fp : String → Except String Page1) : String → Nat → String → Prop
  | here (t e) (h : fp t = .error e) : FailsAt fp t 0 e
  | there (t p t' d e) (h1 : fp t = .ok p) (h2 : p.next = some t')
      (h3 : FailsAt fp t' d e) : FailsAt fp t (d + 1) e

lemma gatherPlaylistP1_failsAt (fp : String → Except String Page1)
    {t : String} {d : Nat} {e : String} (h : FailsAt fp t d e) :
    ∀ fuel : Nat, d < fuel → (gatherPlaylistP1 fp fuel t).1 = .error e := by
  induction h with
  | here t e hf =>
    intro fuel hfuel
    match fuel, hfuel with
    | fuel + 1, _ =>
      simp only [gatherPlaylistP1, hf]
  | there t p t' d e h1 h2 _h3 ih =>
    intro fuel hfuel
    match fuel, hfuel with
    | fuel + 1, hfuel =>
      have hd : d < fuel := Nat.lt_of_succ_lt_succ hfuel
      simp only [gatherPlaylistP1, h1, h2]
      rcases hgp : gatherPlaylistP1 fp fuel t' with ⟨res, evs⟩
      have hres : res = .error e := by
        have := ih fuel hd
        rw [hgp] at this
        exact this
      rw [hres]

/-- C2 (amended): for the identifier-returning Walker of `part_001`, a page
fetch failing at any depth of the chain makes the whole walk return that
error — no partial identifier list — and `Gather` then returns the error
at once, emitting no metric and processing no identifier.  (The fused
`gatherPlaylist` of `youtube.go` behaves differently there: see the
counterexample.) -/
theorem C2_walker_aborts_on_page_failure :
    ∀ (fp : String → Except String Page1) (fd : String → Except String Doc1)
      (d : Nat) (e : String) (fuel : Nat),
      FailsAt fp "" d e → d < fuel →
      (gatherPlaylistP1 fp fuel "").1 = .error e ∧
      Gather1 fp fd fuel = ([], [], some e) := by
  intro fp fd d e fuel h hfuel
  have h1 := gatherPlaylistP1_failsAt fp h fuel hfuel
  refine ⟨h1, ?_⟩
  unfold Gather1
  rw [h1]

/-- C2 witness: a two-page chain whose second fetch fails: the walk and
`Gather` both surface the error `boom` and nothing else. -/
theorem C2_walker_aborts_witness :
    (gatherPlaylistP1
        (fun t => if t = "" then .ok ⟨1, some "T", ["x"]⟩ else .error "boom") 2 "").1
      = .error "boom" ∧
    Gather1 (fun t => if t = "" then .ok ⟨1, some "T", ["x"]⟩ else .error "boom")
        (fun _ => .error "unused") 2
      = ([], [], some "boom") :=
  C2_walker_aborts_on_page_failure
    (fun t => if t = "" then .ok ⟨1, some "T", ["x"]⟩ else .error "boom")
    (fun _ => .error "unused") 1 "boom" 2
    (FailsAt.there "" ⟨1, some "T", ["x"]⟩ "T" 0 "boom" (by decide) (by decide)
      (FailsAt.here "T" "boom" (by decide)))
    (by decide)

/-- C2 counterexample: in the fused `gatherPlaylist` of `youtube.go` (also
cited by the claim), the failure of the page-2 fetch (`boom502`) is handed
to `acc.AddError` and the already-fetched page 1 still has its identifier
`vidA` processed into a metric, while `Gather` returns `nil` — the claimed
whole-walk abort does not happen in that revision. -/
theorem C2_counterexample :
    GatherV2
        (fun t => if t = "" then .ok ⟨some "T2", ["vidA"]⟩ else .error "boom502")
        (fun id => if id = "vidA" then .ok [[("viewCount", .num "7")]] else .error "nofetch")
        2
      = (⟨[⟨"vidA", [("viewCount", ⟨7, 0⟩)]⟩], ["boom502"]⟩, none) := by
  decide

/-! ### C3 -/

/-- Result of one item of the `youtube.go` per-video loop: detail fetch
followed by field assembly. -/
def itemResult (fd : String → Except String DocV2) (id : String) :
    Except String (List (String × Dec)) :=
  (fd id).bind assembleV2

/-- Whether an `Except` is a success. -/
def isOkE {ε α : Type} : Except ε α → Bool
  | .ok _ => true
  | .error _ => false

/-- C3 (amended): in the per-video loop of `youtube.go` `gatherPlaylist`, a
hard failure on one item (fetch or malformed numeric field) aborts that
item AND every remaining item of the same page-level call: the loop stops
with the error exactly at the failing item, keeping the accumulator state
reached after the successfully processed earlier siblings (hence also every
metric emitted before the failure, including those of deeper pages already
threaded through `acc`), and the items after the failing one contribute
nothing. -/
theorem C3_item_failure_aborts_rest_of_page :
    ∀ (fd : String → Except String DocV2) (acc : AccV2) (xs : List String)
      (bad : String) (ys : List String),
      (∀ id ∈ xs, isOkE (itemResult fd id) = true) →
      isOkE (itemResult fd bad) = false →
      ∃ e, processVidsV2 fd acc (xs ++ bad :: ys) = ((processVidsV2 fd acc xs).1, some e) ∧
           (processVidsV2 fd acc xs).2 = none := by
  intro fd acc xs bad ys hxs hbad
  induction xs generalizing acc with
  | nil =>
    cases hfd : fd bad with
    | error e =>
      exact ⟨e, by simp only [List.nil_append, processVidsV2, hfd], rfl⟩
    | ok doc =>
      cases has : assembleV2 doc with
      | error e =>
        exact ⟨e, by simp only [List.nil_append, processVidsV2, hfd, has], rfl⟩
      | ok fields =>
        exfalso
        have : isOkE (itemResult fd bad) = true := by
          simp [itemResult, hfd, Except.bind, has, isOkE]
        rw [this] at hbad
        cases hbad
  | cons x xs ih =>
    have hx : isOkE (itemResult fd x) = true := hxs x (List.mem_cons_self x xs)
    cases hfd : fd x with
    | error e =>
      exfalso
      have : isOkE (itemResult fd x) = false := by
        simp [itemResult, hfd, Except.bind, isOkE]
      rw [this] at hx
      cases hx
    | ok doc =>
      cases has : assembleV2 doc with
      | error e =>
        exfalso
        have : isOkE (itemResult fd x) = false := by
          simp [itemResult, hfd, Except.bind, has, isOkE]
        rw [this] at hx
        cases hx
      | ok fields =>
        simp only [List.cons_append, processVidsV2, hfd, has]
        exact ih _ (fun id hid => hxs id (List.mem_cons_of_mem x hid))

/-- C3 witness for the amended statement: with a good sibling `g`, a
malformed item `m` (its `viewCount` is the string `not-a-number`) and a
trailing sibling `h`, the loop processes `g`, stops at `m` with an error,
and never reaches `h`. -/
theorem C3_item_failure_witness :
    ∃ e, processVidsV2
        (fun id => if id = "g" then .ok [[("viewCount", .num "5")]]
                   else if id = "m" then .ok [[("viewCount", .str "not-a-number")]]
                   else .ok [[("viewCount", .num "9")]])
        ⟨[], []⟩ (["g"] ++ "m" :: ["h"])
        = ((processVidsV2
             (fun id => if id = "g" then .ok [[("viewCount", .num "5")]]
                        else if id = "m" then .ok [[("viewCount", .str "not-a-number")]]
                        else .ok [[("viewCount", .num "9")]])
             ⟨[], []⟩ ["g"]).1, some e) ∧
        (processVidsV2
          (fun id => if id = "g" then .ok [[("viewCount", .num "5")]]
                     else if id = "m" then .ok [[("viewCount", .str "not-a-number")]]
                     else .ok [[("viewCount", .num "9")]])
          ⟨[], []⟩ ["g"]).2 = none :=
  C3_item_failure_aborts_rest_of_page
    (fun id => if id = "g" then .ok [[("viewCount", .num "5")]]
               else if id = "m" then .ok [[("viewCount", .str "not-a-number")]]
               else .ok [[("viewCount", .num "9")]])
    ⟨[], []⟩ ["g"] "m" ["h"] (by decide) (by decide)

/-- C3 counterexample: one page with the two sibling items `vidA` (its
`viewCount` is the unparseable string `not-a-number`) and `vidB` (a clean
document that alone would yield a metric, as the second conjunct shows).
The failure on `vidA` makes `gatherPlaylist` return at once: NO metric at
all is emitted — the sibling `vidB` is not processed, contradicting the
claim that sibling items are still processed and emitted. -/
theorem C3_counterexample :
    GatherV2
        (fun t => if t = "" then .ok ⟨none, ["vidA", "vidB"]⟩ else .error "nopage")
        (fun id => if id = "vidA" then .ok [[("viewCount", .str "not-a-number")]]
                   else if id = "vidB" then .ok [[("viewCount", .num "5")]]
                   else .error "nofetch")
        1
      = (⟨[], [parseErrMsg]⟩, none) ∧
    processVidsV2
        (fun id => if id = "vidA" then .ok [[("viewCount", .str "not-a-number")]]
                   else if id = "vidB" then .ok [[("viewCount", .num "5")]]
                   else .error "nofetch")
        ⟨[], []⟩ ["vidB"]
      = (⟨[⟨"vidB", [("viewCount", ⟨5, 0⟩)]⟩], []⟩, none) := by
  decide

/-! ### C4 -/

lemma extractFieldV2_error_eq (doc : DocV2) (k : String) (e : String)
    (h : extractFieldV2 doc k = .error e) : e = parseErrMsg := by
  unfold extractFieldV2 extractFromText at h
  split at h
  · cases h
  · split at h
    · cases h
      rfl
    · cases h

/-- The trimmed text of field `k` of `doc` is present but unparseable. -/
def badField (doc : DocV2) (k : String) : Prop :=
  trimChars (renderAll (queryAll doc k)) ≠ [] ∧
    parseFloatChars (trimChars (renderAll (queryAll doc k))) = none

instance (doc : DocV2) (k : String) : Decidable (badField doc k) := by
  unfold badField
  infer_instance

lemma assembleGo_err (doc : DocV2) :
    ∀ (keys : List String) (acc : List (String × Dec)),
      (∃ k ∈ keys, badField doc k) →
      assembleGo doc keys acc = .error parseErrMsg := by
  intro keys
  induction keys with
  | nil => intro acc h; exact absurd h (by simp)
  | cons k ks ih =>
    intro acc h
    by_cases hk : badField doc k
    · have hx : extractFieldV2 doc k = .error parseErrMsg := by
        unfold extractFieldV2 extractFromText
        rw [if_neg hk.1, hk.2]
      simp only [assembleGo, hx]
    · rcases h with ⟨k', hk', hbad⟩
      have hk'ks : k' ∈ ks := by
        rcases List.mem_cons.mp hk' with h1 | h2
        · exact absurd (h1 ▸ hbad) hk
        · exact h2
      cases hx : extractFieldV2 doc k with
      | error e =>
        have := extractFieldV2_error_eq doc k e hx
        simp only [assembleGo, hx, this]
      | ok o =>
        cases o with
        | none => simp only [assembleGo, hx]; exact ih acc ⟨k', hk'ks, hbad⟩
        | some q => simp only [assembleGo, hx]; exact ih _ ⟨k', hk'ks, hbad⟩

/-- C4 (amended): in the `youtube.go` extraction path (trim + guard +
`strconv.ParseFloat`), any targeted statistics field whose resolved text is
present (non-empty after trimming) but does not parse as a base-10 number
makes the whole item assembly fail with the hard parse error — the field is
not silently dropped.  (The `extractAllStats` path of the `part_001`
revision, also cited by the claim, instead coerces such a field to 0: see
the counterexample.) -/
theorem C4_unparseable_field_is_hard_error :
    ∀ doc : DocV2, (∃ k ∈ fiveKeys, badField doc k) →
      assembleV2 doc = .error parseErrMsg := by
  intro doc h
  exact assembleGo_err doc fiveKeys [] h

/-- C4 witness: a document whose `viewCount` is the string `not-a-number`
makes the `youtube.go` item assembly fail with the parse error. -/
theorem C4_unparseable_field_witness :
    assembleV2 [[("viewCount", .str "not-a-number")]] = .error parseErrMsg :=
  C4_unparseable_field_is_hard_error [[("viewCount", .str "not-a-number")]]
    ⟨"viewCount", by decide⟩

/-- C4 counterexample: `part_001`'s `extractAllStats` (also cited by the
claim) resolves `viewCount = "not-a-number"` with gjson `Int()`, which
silently coerces it to 0: no error of any kind is raised (the function has
no failure path), the bogus field is kept, and `gatherVideoStatistics`
emits the metric — extraction does NOT fail with a hard error there. -/
theorem C4_counterexample :
    extractAllStats [("VID", [("viewCount", .str "not-a-number"), ("likeCount", .str "3")])] "VID"
      = [("viewCount", 0), ("likeCount", 3), ("dislikeCount", 0), ("favoriteCount", 0),
         ("commentCount", 0)] ∧
    gatherVideoStatistics1
        (fun id => if id = "VID"
          then .ok [("VID", [("viewCount", .str "not-a-number"), ("likeCount", .str "3")])]
          else .error "nofetch") ["VID"]
      = ([⟨"VID", [("viewCount", 0), ("likeCount", 3), ("dislikeCount", 0),
          ("favoriteCount", 0), ("commentCount", 0)]⟩], none) := by
  decide

/-! ### C7 -/

/-- A well-formed chain of playlist pages starting at token `t`: each link
records the token it is fetched with and the page the oracle returns for
it; every page but the last hands the next link's token, the last has no
continuation token. -/
inductive Chain (fp : String → Except String Page1) : String → List (String × Page1) → Prop
  | last (t p) (h : fp t = .ok p) (hn : p.next = none) : Chain fp t [(t, p)]
  | cons (t p t' rest) (h : fp t = .ok p) (hn : p.next = some t')
      (hc : Chain fp t' rest) : Chain fp t ((t, p) :: rest)

lemma gatherPlaylistP1_chain_trace (fp : String → Except String Page1)
    {t : String} {links : List (String × Page1)} (h : Chain fp t links) :
    ∀ fuel : Nat, links.length ≤ fuel →
      ∃ ids, gatherPlaylistP1 fp fuel t =
        (.ok ids,
         links.map (fun l => WEvent.fetch l.1) ++
           links.reverse.map (fun l => WEvent.extract l.1)) := by
  induction h with
  | last t p hp hn =>
    intro fuel hfuel
    match fuel, hfuel with
    | fuel + 1, _ =>
      refine ⟨setIds (List.replicate p.rpp "") 0 p.ids, ?_⟩
      simp [gatherPlaylistP1, hp, hn]
  | cons t p t' rest hp hn _hc ih =>
    intro fuel hfuel
    match fuel, hfuel with
    | fuel + 1, hfuel =>
      have hlen : rest.length ≤ fuel := by
        have := Nat.le_of_succ_le_succ hfuel
        simpa using this
      rcases ih fuel hlen with ⟨ids', hids'⟩
      refine ⟨setIds (List.replicate p.rpp "" ++ ids') 0 p.ids, ?_⟩
      simp only [gatherPlaylistP1, hp, hn, hids']
      simp [List.map_append, List.append_assoc]

/-- C7: `part_001`'s Walker fetches and fully processes the next page
before extracting the current page's identifiers: over any well-formed
chain, the event trace is all the page fetches in chain order followed by
the identifier extractions in reverse chain order — so every page's
extraction happens only after every deeper page has been fetched and
extracted. -/
theorem C7_recurse_before_extract :
    ∀ (fp : String → Except String Page1) (t : String)
      (links : List (String × Page1)) (fuel : Nat),
      Chain fp t links → links.length ≤ fuel →
      (gatherPlaylistP1 fp fuel t).2 =
        links.map (fun l => WEvent.fetch l.1) ++
          links.reverse.map (fun l => WEvent.extract l.1) := by
  intro fp t links fuel h hfuel
  rcases gatherPlaylistP1_chain_trace fp h fuel hfuel with ⟨ids, hids⟩
  rw [hids]

/-- C7 witness: on a concrete two-page chain the trace is
fetch page1, fetch page2, extract page2, extract page1. -/
theorem C7_recurse_before_extract_witness :
    (gatherPlaylistP1
        (fun t => if t = "" then .ok ⟨1, some "T", ["a"]⟩
                  else if t = "T" then .ok ⟨1, none, ["b"]⟩
                  else .error "unexpected token") 2 "").2
      = [.fetch "", .fetch "T", .extract "T", .extract ""] := by
  rw [C7_recurse_before_extract
    (fun t => if t = "" then .ok ⟨1, some "T", ["a"]⟩
              else if t = "T" then .ok ⟨1, none, ["b"]⟩
              else .error "unexpected token") ""
    [("", ⟨1, some "T", ["a"]⟩), ("T", ⟨1, none, ["b"]⟩)] 2
    (Chain.cons "" ⟨1, some "T", ["a"]⟩ "T" [("T", ⟨1, none, ["b"]⟩)]
      (by decide) (by decide)
      (Chain.last "T" ⟨1, none, ["b"]⟩ (by decide) (by decide)))
    (by decide)]
  rfl

/-! ### C8 -/

lemma dropWhile_cut_append (pre l : List Char)
    (hpre : ∀ c ∈ pre, isCut c = true)
    (hl : ∀ c, l.head? = some c → isCut c = false) :
    (pre ++ l).dropWhile isCut = l := by
  induction pre with
  | nil =>
    cases l with
    | nil => rfl
    | cons c cs => simp [List.dropWhile, hl c rfl]
  | cons p ps ih =>
    simp only [List.cons_append, List.dropWhile, hpre p (List.mem_cons_self p ps)]
    exact ih (fun c hc => hpre c (List.mem_cons_of_mem p hc))

lemma trimChars_wrap (pre l suf : List Char)
    (hpre : ∀ c ∈ pre, isCut c = true)
    (hsuf : ∀ c ∈ suf, isCut c = true)
    (hl : ∀ c ∈ l, isCut c = false) :
    trimChars (pre ++ (l ++ suf)) = l := by
  cases l with
  | nil =>
    have hall : ∀ c ∈ pre ++ ([] ++ suf), isCut c = true := by
      intro c hc
      simp only [List.nil_append, List.mem_append] at hc
      rcases hc with hc | hc
      · exact hpre c hc
      · exact hsuf c hc
    have hinner : (pre ++ ([] ++ suf)).dropWhile isCut = [] :=
      List.dropWhile_eq_nil_iff.mpr (fun c hc => by simp [hall c hc])
    unfold trimChars
    rw [hinner]
    rfl
  | cons c cs =>
    have h1 : (pre ++ ((c :: cs) ++ suf)).dropWhile isCut = (c :: cs) ++ suf := by
      apply dropWhile_cut_append pre ((c :: cs) ++ suf) hpre
      intro x hx
      simp only [List.cons_append, List.head?] at hx
      cases hx
      exact hl c (List.mem_cons_self c cs)
    unfold trimChars
    rw [h1, List.reverse_append]
    have h2 : (suf.reverse ++ (c :: cs).reverse).dropWhile isCut = (c :: cs).reverse := by
      apply dropWhile_cut_append suf.reverse ((c :: cs).reverse)
        (fun x hx => hsuf x (List.mem_reverse.mp hx))
      intro x hx
      have hxmem : x ∈ (c :: cs).reverse := by
        cases hrev : (c :: cs).reverse with
        | nil => simp [hrev] at hx
        | cons y ys =>
          rw [hrev] at hx
          simp only [List.head?] at hx
          cases hx
          simp [hrev]
      exact hl x (List.mem_reverse.mp hxmem)
    rw [h2, List.reverse_reverse]

lemma queryAll_single (k : String) (v : Jv) : queryAll [[(k, v)]] k = [v] := by
  simp [queryAll, lookupKey, List.filterMap, List.find?]

/-- C8: for a numeric text `v` (one that `strconv.ParseFloat` accepts and
that contains no bracket or quote character, as every plain decimal numeral
does), the `youtube.go` extractor returns the same numeric value whether
the detail document encodes the field as the bare number `v`, as the quoted
string `"v"`, or as a single-element array wrapping the quoted string
`["v"]`: the gjson rendering plus `strings.Trim(_, "[]\"")` collapse all
three encodings to the same text. -/
theorem C8_encoding_invariance :
    ∀ (k v : String) (d : Dec),
      parseFloatChars v.data = some d →
      v.data.all (fun c => !isCut c) = true →
      extractFieldV2 [[(k, .num v)]] k = .ok (some d) ∧
      extractFieldV2 [[(k, .str v)]] k = .ok (some d) ∧
      extractFieldV2 [[(k, .arr [.str v])]] k = .ok (some d) := by
  intro k v d hparse hclean
  have hne : v.data ≠ [] := by
    intro h
    rw [h] at hparse
    cases hparse
  have hl : ∀ c ∈ v.data, isCut c = false := by
    intro c hc
    have := List.all_eq_true.mp hclean c hc
    simpa using this
  have hdone : ∀ s : List Char, s = v.data → extractFromText s = .ok (some d) := by
    intro s hs
    rw [hs]
    unfold extractFromText
    rw [if_neg hne, hparse]
  refine ⟨?_, ?_, ?_⟩
  · show extractFromText (trimChars (renderAll (queryAll [[(k, .num v)]] k))) = _
    rw [queryAll_single]
    apply hdone
    have : renderAll [Jv.num v] = ['['] ++ (v.data ++ [']']) := by
      simp [renderAll, renderValList, renderVal, joinComma]
    rw [this]
    exact trimChars_wrap ['['] v.data [']'] (by decide) (by decide) hl
  · show extractFromText (trimChars (renderAll (queryAll [[(k, .str v)]] k))) = _
    rw [queryAll_single]
    apply hdone
    have : renderAll [Jv.str v] = ['[', '"'] ++ (v.data ++ ['"', ']']) := by
      simp [renderAll, renderValList, renderVal, joinComma]
    rw [this]
    exact trimChars_wrap ['[', '"'] v.data ['"', ']'] (by decide) (by decide) hl
  · show extractFromText (trimChars (renderAll (queryAll [[(k, .arr [.str v])]] k))) = _
    rw [queryAll_single]
    apply hdone
    have : renderAll [Jv.arr [.str v]] = ['[', '[', '"'] ++ (v.data ++ ['"', ']', ']']) := by
      simp [renderAll, renderValList, renderVal, joinComma]
    rw [this]
    exact trimChars_wrap ['[', '[', '"'] v.data ['"', ']', ']'] (by decide) (by decide) hl

/-- C8 witness: the value 42 encoded as bare number, quoted string, and
single-element array wrapping a quoted string all extract to 42. -/
theorem C8_encoding_invariance_witness :
    extractFieldV2 [[("viewCount", .num "42")]] "viewCount" = .ok (some ⟨42, 0⟩) ∧
    extractFieldV2 [[("viewCount", .str "42")]] "viewCount" = .ok (some ⟨42, 0⟩) ∧
    extractFieldV2 [[("viewCount", .arr [.str "42"])]] "viewCount" = .ok (some ⟨42, 0⟩) :=
  C8_encoding_invariance "viewCount" "42" ⟨42, 0⟩ (by decide) (by decide)
